import Mathlib

/-
Verification of the two core hooks of the light-hooks repository:
the polling engine (usePolling) and the delegated event multiplexer
(useEvent).  The definitions below are a shallow embedding of the
TypeScript source: React state cells become record fields, closures
created by useCallback become explicit `Inst` records carrying the
values they captured (their dependency array), timers and in-flight
promises become explicit pending-work lists, and the event loop is a
step function over an external event alphabet.
-/

namespace Polling

/-- Polling mode: `interval` is the fixed-interval mode (`type: "interval"`),
`long` is the continuous long-polling mode (`type: "long"`). -/
inductive Mode where
  | interval
  | long
deriving DecidableEq, Repr

/-- Session configuration, from `UsePollingOptions`. -/
structure Config where
  mode : Mode
  interval : Nat
  autoStart : Bool
  maxRetries : Nat
  retryDelay : Nat
deriving Repr

/-- The values a memoized `executePoll` closure captured from the render
in which it was created: its useCallback dependency array contains
`retryCount` and `isRunning` (the other dependencies are session
constants).  A scheduled retry re-invokes the very closure instance that
scheduled it, so these captured values, not the live state, drive the
retry branch. -/
structure Inst where
  retryCount : Nat
  isRunning : Bool
deriving DecidableEq, Repr

/-- An in-flight invocation of the user operation: `fnRef.current()` has
been called but its promise has not settled.  `inst` is the closure
instance whose continuation will run on settlement, `isRetry` the
argument `executePoll` was called with, and `awaiter` the long-poll loop
(if any) awaiting this `executePoll` promise. -/
structure Flight where
  fid : Nat
  inst : Inst
  isRetry : Bool
  awaiter : Option Nat
deriving DecidableEq, Repr

/-- What a pending `setTimeout` will do when it fires: run a retry
(re-invoking the captured closure instance) or resolve the pacing delay
of a long-poll loop. -/
inductive TimeoutKind where
  | retry (inst : Inst)
  | pacing (loopId : Nat)
deriving DecidableEq, Repr

/-- A pending `setTimeout`, with its id, payload and delay in ms. -/
structure Timeout where
  tid : Nat
  kind : TimeoutKind
  delay : Nat
deriving DecidableEq, Repr

/-- Observable emissions: the start of an operation invocation
(`fnRef.current()` called), an `onSuccess` callback, an `onError`
callback with its attempt count. -/
inductive Emit (T E : Type) where
  | invoke (fid : Nat)
  | success (v : T)
  | errorCb (e : E) (attempt : Nat)
deriving DecidableEq

/-- The complete session state: the five useState cells (`data`,
`isLoading`, `isRunning`, `error`, `retryCount`), the mounted flag
`isActiveRef`, the interval timer with the closure instance its callback
captured, pending timeouts plus the id `timeoutRef` currently holds,
alive long-poll loops with their captured instance, in-flight
invocations, a fresh-id counter, and the emission log. -/
structure PState (T E : Type) where
  data : Option T
  isLoading : Bool
  isRunning : Bool
  error : Option E
  retryCount : Nat
  isActive : Bool
  intervalTimer : Option Inst
  timeouts : List Timeout
  timeoutRef : Option Nat
  loops : List (Nat × Inst)
  flights : List Flight
  nextId : Nat
  log : List (Emit T E)

variable {T E : Type}

/-- The synchronous prefix of `executePoll` (source lines 125-138): bail
out when unmounted, set `isLoading`, clear `error` unless this is a
retry, then call the operation, which puts a new invocation in flight.
The AbortController created here is not modelled: its signal is never
passed to `fnRef.current()` and never consulted afterwards, so aborting
it has no observable effect. -/
def executePoll (inst : Inst) (isRetry : Bool) (awaiter : Option Nat)
    (s : PState T E) : PState T E :=
  if s.isActive then
    { s with isLoading := true,
             error := if isRetry then s.error else none,
             flights := s.flights ++ [⟨s.nextId, inst, isRetry, awaiter⟩],
             nextId := s.nextId + 1,
             log := s.log ++ [Emit.invoke s.nextId] }
  else s

/-- `setTimeout`: record the pending timeout and store its id in
`timeoutRef` (overwriting whatever id the ref held). -/
def scheduleTimeout (kind : TimeoutKind) (delay : Nat) (s : PState T E) :
    PState T E :=
  { s with timeouts := s.timeouts ++ [⟨s.nextId, kind, delay⟩],
           timeoutRef := some s.nextId,
           nextId := s.nextId + 1 }

/-- `clearTimeout(timeoutRef.current)` followed by nulling the ref: only
the timeout whose id the ref currently holds is cancelled. -/
def clearRefTimeout (s : PState T E) : PState T E :=
  match s.timeoutRef with
  | none => s
  | some tid =>
    { s with timeouts := s.timeouts.filter (fun t => t.tid != tid),
             timeoutRef := none }

/-- The internal `start` (source lines 196-217), as run by the
`[isRunning]` effect: capture the closure instance from the current
render, set running, clear `error` and `retryCount`, then either poll
immediately and install the interval (fixed-interval mode) or spawn the
long-poll loop, whose first iteration checks its captured guard and
invokes the operation. -/
def start (cfg : Config) (s : PState T E) : PState T E :=
  let inst : Inst := ⟨s.retryCount, s.isRunning⟩
  let s1 := { s with isRunning := true, error := none, retryCount := 0 }
  match cfg.mode with
  | Mode.interval =>
      let s2 := executePoll inst false none s1
      { s2 with intervalTimer := some inst }
  | Mode.long =>
      let lid := s1.nextId
      let s2 := { s1 with loops := s1.loops ++ [(lid, inst)], nextId := lid + 1 }
      if s2.isActive ∧ inst.isRunning then executePoll inst false (some lid) s2
      else { s2 with loops := s2.loops.filter (fun p => p.1 != lid) }

/-- The internal `stop` (source lines 220-238): set not-running, clear
the interval and the ref-held timeout, abort the controller (without
observable effect, see `executePoll`), clear `isLoading`. -/
def stop (s : PState T E) : PState T E :=
  let s1 := clearRefTimeout { s with isRunning := false, intervalTimer := none }
  { s1 with isLoading := false }

/-- Resumption of a long-poll loop after the `executePoll` promise it
awaited settles (source lines 183-192): re-check the loop's captured
guard; when it holds, schedule the pacing delay `min(interval, 100)`;
otherwise the `while` loop exits. -/
def loopResume (cfg : Config) (aw : Option Nat) (s : PState T E) : PState T E :=
  match aw with
  | none => s
  | some lid =>
    match s.loops.find? (fun p => p.1 == lid) with
    | none => s
    | some (_, inst) =>
      if s.isActive ∧ inst.isRunning then
        scheduleTimeout (TimeoutKind.pacing lid) (min cfg.interval 100) s
      else { s with loops := s.loops.filter (fun p => p.1 != lid) }

/-- Successful settlement of the in-flight invocation `fid` (source
lines 138-145 and the finally block): the continuation checks only the
mounted flag, then stores the result, resets the retry counter, clears
the error, fires `onSuccess`, clears `isLoading`, and the awaiting
long-poll loop (if any) resumes. -/
def settleOk (cfg : Config) (fid : Nat) (v : T) (s : PState T E) : PState T E :=
  match s.flights.find? (fun fl => fl.fid == fid) with
  | none => s
  | some f =>
    let s1 := { s with flights := s.flights.filter (fun fl => fl.fid != fid) }
    if s1.isActive then
      loopResume cfg f.awaiter
        { s1 with data := some v, retryCount := 0, error := none,
                  isLoading := false,
                  log := s1.log ++ [Emit.success v] }
    else loopResume cfg f.awaiter s1

/-- Failed settlement of the in-flight invocation `fid` (source lines
146-176): the branch compares the closure's captured `retryCount`
against `maxRetries`.  Below the budget: bump the live counter, fire
`onError`, schedule a retry of the same closure instance.  At or above
it: surface the error, reset the counter, fire `onError`, and stop the
session in fixed-interval mode only — in which case the `[isRunning]`
effect then runs the internal `stop`. -/
def settleErr (cfg : Config) (fid : Nat) (e : E) (s : PState T E) : PState T E :=
  match s.flights.find? (fun fl => fl.fid == fid) with
  | none => s
  | some f =>
    let s1 := { s with flights := s.flights.filter (fun fl => fl.fid != fid) }
    if s1.isActive then
      let wasRunning := s1.isRunning
      let s2 :=
        if f.inst.retryCount < cfg.maxRetries then
          scheduleTimeout (TimeoutKind.retry f.inst) cfg.retryDelay
            { s1 with retryCount := f.inst.retryCount + 1,
                      log := s1.log ++ [Emit.errorCb e (f.inst.retryCount + 1)] }
        else
          let s3 := { s1 with error := some e, retryCount := 0,
                              log := s1.log ++ [Emit.errorCb e (f.inst.retryCount + 1)] }
          if cfg.mode = Mode.interval then { s3 with isRunning := false } else s3
      let s4 := loopResume cfg f.awaiter { s2 with isLoading := false }
      if wasRunning ∧ ¬ s4.isRunning then stop s4 else s4
    else loopResume cfg f.awaiter s1

/-- External events: the four returned control functions, an interval
tick, a pending timeout firing, settlement of an in-flight invocation,
and unmount. -/
inductive Ev (T E : Type) where
  | apiStart
  | apiStop
  | apiPoll
  | apiReset
  | intervalTick
  | fireTimeout (tid : Nat)
  | settleOk (fid : Nat) (v : T)
  | settleErr (fid : Nat) (e : E)
  | unmount
deriving DecidableEq

/-- One step of the event loop.  The returned `start`/`stop` only set
`isRunning`; the `[isRunning]` effect (source lines 252-258) then runs
the internal `start`/`stop`, so calling them in the current state is a
no-op.  `poll` invokes the latest memoized `executePoll`, whose captured
values are the current ones.  An interval tick or a firing timeout runs
its stored callback, guarded by the mounted flag and the `isRunning`
value that callback captured. -/
def step (cfg : Config) (s : PState T E) : Ev T E → PState T E
  | Ev.apiStart =>
    if s.isActive ∧ ¬ s.isRunning then start cfg { s with isRunning := true }
    else s
  | Ev.apiStop => if s.isActive ∧ s.isRunning then stop s else s
  | Ev.apiPoll => executePoll ⟨s.retryCount, s.isRunning⟩ false none s
  | Ev.apiReset =>
    if s.isActive then { s with error := none, retryCount := 0 } else s
  | Ev.intervalTick =>
    match s.intervalTimer with
    | none => s
    | some inst =>
      if s.isActive ∧ inst.isRunning then executePoll inst false none s else s
  | Ev.fireTimeout tid =>
    match s.timeouts.find? (fun t => t.tid == tid) with
    | none => s
    | some t =>
      let s1 := { s with timeouts := s.timeouts.filter (fun u => u.tid != tid) }
      match t.kind with
      | TimeoutKind.retry inst =>
        if s1.isActive ∧ inst.isRunning then executePoll inst true none s1
        else s1
      | TimeoutKind.pacing lid =>
        match s1.loops.find? (fun p => p.1 == lid) with
        | none => s1
        | some (_, inst) =>
          if s1.isActive ∧ inst.isRunning then executePoll inst false (some lid) s1
          else { s1 with loops := s1.loops.filter (fun p => p.1 != lid) }
  | Ev.settleOk fid v => settleOk cfg fid v s
  | Ev.settleErr fid e => settleErr cfg fid e s
  | Ev.unmount => clearRefTimeout { s with isActive := false, intervalTimer := none }

/-- State right after the initial render: the useState initial values,
with `isRunning` initialised to `autoStart`. -/
def initState (cfg : Config) : PState T E :=
  { data := none, isLoading := false, isRunning := cfg.autoStart, error := none,
    retryCount := 0, isActive := true, intervalTimer := none, timeouts := [],
    timeoutRef := none, loops := [], flights := [], nextId := 0, log := [] }

/-- Mounting: the `[isRunning]` effect runs on mount and calls the
internal `start` or `stop` according to the initial flag; the auto-start
effect's `setIsRunning(true)` is then a no-op. -/
def mount (cfg : Config) : PState T E :=
  let s : PState T E := initState cfg
  if s.isRunning then start cfg s else stop s

/-- Run a mounted session through a list of events. -/
def run (cfg : Config) (evs : List (Ev T E)) : PState T E :=
  evs.foldl (step cfg) (mount cfg)

/-- Number of operation invocations recorded in an emission log. -/
def countInvokes (l : List (Emit T E)) : Nat :=
  (l.filter (fun m => match m with | Emit.invoke _ => true | _ => false)).length

/-- Runs with the operation's value type and error type both `Nat`. -/
def runN (cfg : Config) (evs : List (Ev Nat Nat)) : PState Nat Nat :=
  run cfg evs

theorem loopResume_isRunning (cfg : Config) (aw : Option Nat)
    (s : PState T E) : (loopResume cfg aw s).isRunning = s.isRunning := by
  unfold loopResume scheduleTimeout
  repeat first | rfl | split

theorem loopResume_retryCount (cfg : Config) (aw : Option Nat)
    (s : PState T E) : (loopResume cfg aw s).retryCount = s.retryCount := by
  unfold loopResume scheduleTimeout
  repeat first | rfl | split

theorem loopResume_error (cfg : Config) (aw : Option Nat)
    (s : PState T E) : (loopResume cfg aw s).error = s.error := by
  unfold loopResume scheduleTimeout
  repeat first | rfl | split

theorem stop_isRunning (s : PState T E) : (stop s).isRunning = false := by
  unfold stop clearRefTimeout
  repeat first | rfl | split

theorem stop_retryCount (s : PState T E) :
    (stop s).retryCount = s.retryCount := by
  unfold stop clearRefTimeout
  repeat first | rfl | split

/-- Fixed-interval session with `autoStart` and default settings, for
the C1 refutation. -/
def cfgC1 : Config := ⟨Mode.interval, 1000, true, 3, 1000⟩

/-- Same configuration for the C2 refutation. -/
def cfgC2 : Config := ⟨Mode.interval, 1000, true, 3, 1000⟩

/-- Fixed-interval session with `maxRetries = 1` and an always-failing
operation, for the C3 refutation. -/
def cfgC3 : Config := ⟨Mode.interval, 1000, true, 1, 10⟩

/-- Claim C3 trace: the initial attempt fails, the scheduled retry fires and
fails, and so on — settlements and retry-timer firings alternate. -/
def traceC3 : List (Ev Nat Nat) :=
  [Ev.settleErr 0 7, Ev.fireTimeout 1, Ev.settleErr 2 7,
   Ev.fireTimeout 3, Ev.settleErr 4 7, Ev.fireTimeout 5]

/-- Claim C1 refutation: on mount the session starts an invocation; an
interval tick that fires while that invocation is still in flight starts
a second one, because neither the tick callback nor `executePoll` gates
on an in-flight flag — two invocations are simultaneously in flight. -/
theorem usePolling_no_single_flight_gate :
    (runN cfgC1 [Ev.intervalTick]).flights.length = 2 := by decide

/-- Claim C2 refutation: `stop()` is called while the mount-started invocation
is in flight; when that invocation later resolves with 42, the
settlement continuation — which checks only the mounted flag, the abort
signal never having been passed to the operation — still stores 42 into
`data` and fires the success callback, although the session is no longer
running. -/
theorem usePolling_stale_result_applied :
    (runN cfgC2 [Ev.apiStop, Ev.settleOk 0 42]).isRunning = false ∧
    (runN cfgC2 [Ev.apiStop, Ev.settleOk 0 42]).data = some 42 ∧
    Emit.success 42 ∈ (runN cfgC2 [Ev.apiStop, Ev.settleOk 0 42]).log := by
  decide

/-- Claim C3 refutation: with `maxRetries = 1` the claim predicts a stopped
session with `lastError` set after exactly 2 attempts.  Instead, each
retry re-invokes the closure instance whose captured `retryCount` is 0,
so the budget check never fails: after 4 begun attempts (3 settled
failures) the session is still running, `error` is still `none`, and
`retryCount` is pinned at 1. -/
theorem usePolling_retry_never_terminates :
    (runN cfgC3 traceC3).isRunning = true ∧
    (runN cfgC3 traceC3).error = none ∧
    (runN cfgC3 traceC3).retryCount = 1 ∧
    countInvokes (runN cfgC3 traceC3).log = 4 := by decide

theorem countInvokes_append (l₁ l₂ : List (Emit T E)) :
    countInvokes (l₁ ++ l₂) = countInvokes l₁ + countInvokes l₂ := by
  simp [countInvokes, List.filter_append]

/-- Failure round trace of length `k` for the always-failing session:
round `j` settles the pending attempt (flight id `2*j`) with an error,
after which the scheduled retry timeout (id `2*j+1`) fires and begins
the next attempt. -/
def traceC3gen : Nat → List (Ev Nat Nat)
  | 0 => []
  | k+1 => traceC3gen k ++ [Ev.settleErr (2*k) 7, Ev.fireTimeout (2*k+1)]

theorem c3_round (s : PState Nat Nat) (k : Nat) (b : Bool)
    (hact : s.isActive = true) (hrun : s.isRunning = true)
    (hto : s.timeouts = []) (hnext : s.nextId = 2*k+1)
    (hfl : s.flights = [⟨2*k, ⟨0, true⟩, b, none⟩]) :
    step cfgC3 (step cfgC3 s (Ev.settleErr (2*k) 7))
        (Ev.fireTimeout (2*k+1))
      = { s with flights := [⟨2*(k+1), ⟨0, true⟩, true, none⟩],
                 retryCount := 1, isLoading := true,
                 timeouts := [], timeoutRef := some (2*k+1),
                 nextId := 2*(k+1)+1,
                 log := s.log ++ [Emit.errorCb 7 1, Emit.invoke (2*k+2)] } := by
  have h1 : step cfgC3 s (Ev.settleErr (2*k) 7)
      = { s with flights := [], retryCount := 1, isLoading := false,
                 timeouts := [⟨2*k+1, TimeoutKind.retry ⟨0, true⟩, 10⟩],
                 timeoutRef := some (2*k+1), nextId := 2*k+2,
                 log := s.log ++ [Emit.errorCb 7 1] } := by
    simp only [step, settleErr, hfl, List.find?, beq_self_eq_true, hact,
               if_true, List.filter, bne_self_eq_false, scheduleTimeout,
               loopResume, cfgC3, hrun]
    simp [hto, hnext]
  rw [h1]
  simp only [step, List.find?, beq_self_eq_true, hact, if_true, List.filter,
             bne_self_eq_false, executePoll]
  simp
  omega

/-- General form of the C3 refutation, for every number of failure
rounds: the always-failing `maxRetries = 1` fixed-interval session never
surfaces an error and never stops — after `k` rounds it is still
running, `error` is still `none`, `k+1` attempts have begun and the
(`k+1`)-st is in flight. -/
theorem usePolling_retry_loop_forever (k : Nat) :
    (runN cfgC3 (traceC3gen k)).isRunning = true ∧
    (runN cfgC3 (traceC3gen k)).error = none ∧
    (runN cfgC3 (traceC3gen k)).isActive = true ∧
    (runN cfgC3 (traceC3gen k)).timeouts = [] ∧
    (runN cfgC3 (traceC3gen k)).nextId = 2*k+1 ∧
    countInvokes (runN cfgC3 (traceC3gen k)).log = k+1 ∧
    ∃ b, (runN cfgC3 (traceC3gen k)).flights = [⟨2*k, ⟨0, true⟩, b, none⟩] := by
  induction k with
  | zero =>
    refine ⟨by decide, by decide, by decide, by decide, by decide, by decide,
      false, by decide⟩
  | succ k ih =>
    obtain ⟨hrun, herr, hact, hto, hnext, hcnt, b, hfl⟩ := ih
    have hstep : runN cfgC3 (traceC3gen (k+1))
        = step cfgC3 (step cfgC3 (runN cfgC3 (traceC3gen k))
            (Ev.settleErr (2*k) 7)) (Ev.fireTimeout (2*k+1)) := by
      simp [runN, run, traceC3gen, List.foldl_append]
    rw [hstep, c3_round (runN cfgC3 (traceC3gen k)) k b hact hrun hto hnext hfl]
    refine ⟨hrun, herr, hact, rfl, rfl, ?_, true, rfl⟩
    simp only [countInvokes_append, hcnt]
    simp [countInvokes]

/-- Claim C8: `reset()` on a mounted session sets `error` to `none` and
`retryCount` to 0 and changes nothing else: `data`, `isRunning`,
`isLoading`, all timers, in-flight invocations and the emission log are
untouched. -/
theorem usePolling_reset_frame (cfg : Config) (s : PState Nat Nat)
    (hact : s.isActive = true) :
    step cfg s Ev.apiReset = { s with error := none, retryCount := 0 } := by
  simp [step, hact]

/-- Default fixed-interval configuration for the C8 witness. -/
def cfgC8 : Config := ⟨Mode.interval, 1000, true, 3, 1000⟩

/-- Claim C8 witness: the mounted state is active and `reset` there only
clears `error` and `retryCount`. -/
theorem usePolling_reset_frame_witness :
    (runN cfgC8 []).isActive = true ∧
    step cfgC8 (runN cfgC8 []) Ev.apiReset
      = { runN cfgC8 [] with error := none, retryCount := 0 } :=
  ⟨rfl, usePolling_reset_frame cfgC8 (runN cfgC8 []) rfl⟩

/-- Claim C10: a transition to Running through the returned `start()` runs the
internal `start`, which sets `error` to `none` and `retryCount` to 0 and
then begins the first invocation of the new run, in both modes. -/
theorem usePolling_start_clears_error (cfg : Config) (s : PState Nat Nat)
    (hact : s.isActive = true) (hnot : s.isRunning = false) :
    (step cfg s Ev.apiStart).error = none ∧
    (step cfg s Ev.apiStart).retryCount = 0 ∧
    (step cfg s Ev.apiStart).flights.length = s.flights.length + 1 := by
  have hcond : s.isActive ∧ ¬ s.isRunning = true := by simp [hact, hnot]
  simp only [step, if_pos hcond]
  cases hm : cfg.mode <;> simp [start, executePoll, hm, hact]

/-- Claim C7: when a failed settlement finds the retry budget exhausted (the
closure's captured `retryCount` at or above `maxRetries`), a
fixed-interval session transitions to not-Running, while a continuous
(long) session keeps its Running flag and resets `retryCount` to 0,
giving the next logical tick a fresh budget — it never stops for this
reason. -/
theorem usePolling_exhaustion_mode_asymmetry (cfg : Config)
    (s : PState Nat Nat) (fid e : Nat) (f : Flight)
    (hfind : s.flights.find? (fun fl => fl.fid == fid) = some f)
    (hmax : cfg.maxRetries ≤ f.inst.retryCount)
    (hact : s.isActive = true) :
    (cfg.mode = Mode.interval →
      (step cfg s (Ev.settleErr fid e)).isRunning = false) ∧
    (cfg.mode = Mode.long →
      (step cfg s (Ev.settleErr fid e)).isRunning = s.isRunning ∧
      (step cfg s (Ev.settleErr fid e)).retryCount = 0) := by
  have hlt : ¬ f.inst.retryCount < cfg.maxRetries := Nat.not_lt.mpr hmax
  simp only [step, settleErr, hfind, hact, if_true, if_neg hlt]
  constructor
  · intro hm
    cases hr : s.isRunning <;>
      simp [hm, hr, loopResume_isRunning, stop_isRunning]
  · intro hm
    cases hr : s.isRunning <;>
      simp [hm, hr, loopResume_isRunning, loopResume_retryCount,
            stop_isRunning, stop_retryCount]

/-- Fixed-interval session with `maxRetries = 0` for the C7 witness. -/
def cfgC7 : Config := ⟨Mode.interval, 1000, true, 0, 1000⟩

/-- Claim C7 witness: on the mount-started invocation's failure with an
exhausted budget, the fixed-interval session stops. -/
theorem usePolling_exhaustion_mode_asymmetry_witness :
    ((runN cfgC7 []).flights.find? (fun fl => fl.fid == 0)
        = some ⟨0, ⟨0, true⟩, false, none⟩) ∧
    cfgC7.maxRetries ≤ 0 ∧
    (step cfgC7 (runN cfgC7 []) (Ev.settleErr 0 7)).isRunning = false :=
  ⟨by decide, by decide,
   (usePolling_exhaustion_mode_asymmetry cfgC7 (runN cfgC7 []) 0 7
      ⟨0, ⟨0, true⟩, false, none⟩ (by decide) (by decide) (by decide)).1 rfl⟩

theorem find?_none_append {α : Type} (p : α → Bool) :
    ∀ l₁ l₂ : List α, (∀ x ∈ l₁, p x = false) →
      (l₁ ++ l₂).find? p = l₂.find? p := by
  intro l₁
  induction l₁ with
  | nil => intro l₂ _; rfl
  | cons a l₁ ih =>
    intro l₂ h
    have ha := h a (List.mem_cons_self a l₁)
    simp only [List.cons_append, List.find?, ha]
    exact ih l₂ (fun x hx => h x (List.mem_cons_of_mem a hx))

theorem loopResume_pacing_mem (cfg : Config) (lid : Nat) (inst : Inst)
    (s : PState Nat Nat)
    (hloop : s.loops.find? (fun p => p.1 == lid) = some (lid, inst))
    (hact : s.isActive = true) (hrun : inst.isRunning = true) :
    ∃ t ∈ (loopResume cfg (some lid) s).timeouts,
      t.kind = TimeoutKind.pacing lid ∧ t.delay = min cfg.interval 100 := by
  have hguard : s.isActive ∧ inst.isRunning = true := ⟨hact, hrun⟩
  simp only [loopResume, hloop, hguard, if_pos hguard, scheduleTimeout]
  exact ⟨⟨s.nextId, TimeoutKind.pacing lid, min cfg.interval 100⟩,
    by simp, rfl, rfl⟩

/-- Claim C9: in a continuous (long) session, when a loop-awaited invocation
settles and the loop's guard still holds, the loop schedules the pacing
delay of exactly `min(interval, 100)` milliseconds — stated for a
successful settlement (first two parts) and for a failed one (last
part) — and when the pacing timeout fires the next invocation begins
(third part): the loop repeats for as long as the session remains
Running.  The freshness hypothesis says pending timeout ids are below
the id counter, which holds in every reachable state. -/
theorem usePolling_continuous_pacing (cfg : Config) (s : PState Nat Nat)
    (fid v lid : Nat) (f : Flight) (inst : Inst)
    (hmode : cfg.mode = Mode.long)
    (hfind : s.flights.find? (fun fl => fl.fid == fid) = some f)
    (haw : f.awaiter = some lid)
    (hloop : s.loops.find? (fun p => p.1 == lid) = some (lid, inst))
    (hrun : inst.isRunning = true)
    (hact : s.isActive = true)
    (hfresh : ∀ t ∈ s.timeouts, t.tid < s.nextId) :
    ((step cfg s (Ev.settleOk fid v)).timeoutRef = some s.nextId) ∧
    ((⟨s.nextId, TimeoutKind.pacing lid, min cfg.interval 100⟩ : Timeout) ∈
      (step cfg s (Ev.settleOk fid v)).timeouts) ∧
    ((step cfg (step cfg s (Ev.settleOk fid v))
        (Ev.fireTimeout s.nextId)).flights.length
      = (step cfg s (Ev.settleOk fid v)).flights.length + 1) ∧
    (∀ e : Nat, ∃ t ∈ (step cfg s (Ev.settleErr fid e)).timeouts,
      t.kind = TimeoutKind.pacing lid ∧ t.delay = min cfg.interval 100) := by
  have hguard : s.isActive ∧ inst.isRunning = true := ⟨hact, hrun⟩
  have hstep1 : step cfg s (Ev.settleOk fid v)
      = scheduleTimeout (TimeoutKind.pacing lid) (min cfg.interval 100)
          { s with flights := s.flights.filter (fun fl => fl.fid != fid),
                   data := some v, retryCount := 0, error := none,
                   isLoading := false,
                   log := s.log ++ [Emit.success v] } := by
    simp only [step, settleOk, hfind, hact, if_true, loopResume, haw, hloop,
               hguard, if_pos hguard]
    simp
  refine ⟨?_, ?_, ?_, ?_⟩
  · rw [hstep1]; rfl
  · rw [hstep1]
    simp [scheduleTimeout]
  · rw [hstep1]
    have hnone : ∀ t ∈ s.timeouts, (t.tid == s.nextId) = false := by
      intro t ht
      exact beq_eq_false_iff_ne.mpr (Nat.ne_of_lt (hfresh t ht))
    simp only [step, scheduleTimeout]
    rw [find?_none_append _ _ _ hnone]
    simp only [List.find?, beq_self_eq_true, hloop, hguard, if_pos hguard,
               executePoll, hact, if_true]
    simp [executePoll, hact]
  · intro e
    by_cases hb : f.inst.retryCount < cfg.maxRetries
    · have hstep2 : step cfg s (Ev.settleErr fid e)
          = scheduleTimeout (TimeoutKind.pacing lid) (min cfg.interval 100)
              { s with flights := s.flights.filter (fun fl => fl.fid != fid),
                       retryCount := f.inst.retryCount + 1,
                       isLoading := false,
                       timeouts := s.timeouts
                         ++ [⟨s.nextId, TimeoutKind.retry f.inst, cfg.retryDelay⟩],
                       timeoutRef := some s.nextId,
                       nextId := s.nextId + 1,
                       log := s.log ++ [Emit.errorCb e (f.inst.retryCount + 1)] } := by
        simp only [step, settleErr, hfind, hact, if_true, if_pos hb,
                   scheduleTimeout, loopResume, haw, hloop, hguard,
                   if_pos hguard]
        simp
      rw [hstep2]
      simp only [scheduleTimeout]
      refine ⟨⟨s.nextId + 1, TimeoutKind.pacing lid, min cfg.interval 100⟩,
        ?_, rfl, rfl⟩
      simp
    · have hstep3 : step cfg s (Ev.settleErr fid e)
          = scheduleTimeout (TimeoutKind.pacing lid) (min cfg.interval 100)
              { s with flights := s.flights.filter (fun fl => fl.fid != fid),
                       error := some e, retryCount := 0, isLoading := false,
                       log := s.log ++ [Emit.errorCb e (f.inst.retryCount + 1)] } := by
        have hne : ¬ (Mode.long = Mode.interval) := by decide
        simp only [step, settleErr, hfind, hact, if_true, if_neg hb, hmode,
                   if_neg hne, scheduleTimeout, loopResume, haw, hloop, hguard,
                   if_pos hguard]
        simp
      rw [hstep3]
      simp only [scheduleTimeout]
      refine ⟨⟨s.nextId, TimeoutKind.pacing lid, min cfg.interval 100⟩,
        ?_, rfl, rfl⟩
      simp

/-- Continuous-mode session for the C9 witness. -/
def cfgC9 : Config := ⟨Mode.long, 1000, true, 3, 1000⟩

/-- Claim C9 witness: the mount-started long-poll invocation settles; a
100ms pacing timeout is scheduled (whether it resolved or rejected) and
firing it begins the next invocation. -/
theorem usePolling_continuous_pacing_witness :
    ((⟨(runN cfgC9 []).nextId, TimeoutKind.pacing 0,
        min cfgC9.interval 100⟩ : Timeout) ∈
      (step cfgC9 (runN cfgC9 []) (Ev.settleOk 1 42)).timeouts) ∧
    ((step cfgC9 (step cfgC9 (runN cfgC9 []) (Ev.settleOk 1 42))
        (Ev.fireTimeout (runN cfgC9 []).nextId)).flights.length
      = (step cfgC9 (runN cfgC9 []) (Ev.settleOk 1 42)).flights.length + 1) ∧
    (∃ t ∈ (step cfgC9 (runN cfgC9 []) (Ev.settleErr 1 7)).timeouts,
      t.kind = TimeoutKind.pacing 0 ∧ t.delay = min cfgC9.interval 100) := by
  have h := usePolling_continuous_pacing cfgC9 (runN cfgC9 []) 1 42 0
    ⟨1, ⟨0, true⟩, false, some 0⟩ ⟨0, true⟩ rfl (by decide) rfl (by decide)
    rfl rfl (by decide)
  exact ⟨h.2.1, h.2.2.1, h.2.2.2 7⟩

/-- Manually started fixed-interval configuration for the C10 witness. -/
def cfgC10 : Config := ⟨Mode.interval, 1000, false, 3, 1000⟩

/-- Claim C10 witness: a mounted, not-yet-running session; `start()` clears
the error state and begins the run's first invocation. -/
theorem usePolling_start_clears_error_witness :
    (runN cfgC10 []).isActive = true ∧
    (runN cfgC10 []).isRunning = false ∧
    ((step cfgC10 (runN cfgC10 []) Ev.apiStart).error = none ∧
     (step cfgC10 (runN cfgC10 []) Ev.apiStart).retryCount = 0 ∧
     (step cfgC10 (runN cfgC10 []) Ev.apiStart).flights.length
       = (runN cfgC10 []).flights.length + 1) :=
  ⟨rfl, rfl, usePolling_start_clears_error cfgC10 (runN cfgC10 []) rfl rfl⟩

end Polling

namespace UseEvent

/-- A DOM element: a node identity, an optional id attribute, and a tag
name. -/
structure Elem where
  eid : Nat
  idAttr : Option String
  tag : String
deriving DecidableEq, Repr

/-- A document is its elements in tree order. -/
abbrev Doc := List Elem

/-- `document.getElementById`: the first element in tree order carrying
the id. -/
def getElementById (doc : Doc) (i : String) : Option Elem :=
  doc.find? (fun e => e.idAttr == some i)

/-- `document.getElementsByTagName`: all elements with the tag, in tree
order. -/
def getElementsByTagName (doc : Doc) (t : String) : List Elem :=
  doc.filter (fun e => e.tag == t)

/-- AddEventListenerOptions; `none` fields are absent properties. -/
structure ListenerOptions where
  capture : Option Bool := none
  passive : Option Bool := none
  once : Option Bool := none
deriving DecidableEq, Repr

/-- The object spread `{ ...global, ...config }`: a property present on
the per-binding options overrides the global one. -/
def mergeOpts (g c : ListenerOptions) : ListenerOptions :=
  ⟨c.capture.orElse (fun _ => g.capture),
   c.passive.orElse (fun _ => g.passive),
   c.once.orElse (fun _ => g.once)⟩

/-- A value that may be a single string or an array of strings, as the
`ids` and `targetElements` fields accept. -/
inductive StrOrArr where
  | str (s : String)
  | arr (l : List String)
deriving DecidableEq, Repr

/-- The normalisation `Array.isArray(x) ? x : [x]`. -/
def StrOrArr.toList : StrOrArr → List String
  | .str s => [s]
  | .arr l => l

/-- One entry of `EventOptions`.  Callbacks are identified by a numeric
id since only their identity matters to the bookkeeping. -/
structure EventOptions where
  event : String
  targetElements : Option StrOrArr := none
  ids : Option StrOrArr := none
  callback : Option Nat := none
  options : ListenerOptions := {}
deriving DecidableEq, Repr

/-- The `EventGlobalConfig` fallbacks. -/
structure EventGlobalConfig where
  targetElements : Option StrOrArr := none
  ids : Option StrOrArr := none
  options : ListenerOptions := {}
deriving DecidableEq, Repr

/-- The second hook argument: a bare event name, one configuration, or a
list of configurations. -/
inductive EventOptionsArg where
  | str (s : String)
  | one (c : EventOptions)
  | many (l : List EventOptions)
deriving DecidableEq, Repr

/-- Normalisation of the argument into a config list (source lines
116-123). -/
def normalizeConfigs : EventOptionsArg → List EventOptions
  | .str s => [{ event := s }]
  | .one c => [c]
  | .many l => l

/-- One entry of the bookkeeping table `elementCallbacksRef`: the event
type, the elements the listener was attached to, the effective callback
and the merged options. -/
structure ElementCallback where
  event : String
  elements : List Elem
  callback : Nat
  options : ListenerOptions
deriving DecidableEq, Repr

/-- The identity under which the DOM stores a listener: target element,
event type, callback, capture flag. -/
structure AttachKey where
  eid : Nat
  event : String
  cb : Nat
  capture : Bool
deriving DecidableEq, Repr

/-- `addEventListener`: a listener already registered under the same
identity is not added again. -/
def addListener (t : List AttachKey) (k : AttachKey) : List AttachKey :=
  if k ∈ t then t else t ++ [k]

/-- `removeEventListener`: remove the listener registered under this
identity, if any. -/
def eraseFirst : List AttachKey → AttachKey → List AttachKey
  | [], _ => []
  | a :: rest, k => if a = k then rest else a :: eraseFirst rest k

/-- Attach a list of listeners in order. -/
def attachAll (t : List AttachKey) (ks : List AttachKey) : List AttachKey :=
  ks.foldl addListener t

/-- Detach a list of listeners in order. -/
def detachAll (t : List AttachKey) (ks : List AttachKey) : List AttachKey :=
  ks.foldl eraseFirst t

/-- `config.ids ?? globalConfig.ids ?? []`, normalised to an array. -/
def effIds (c : EventOptions) (g : EventGlobalConfig) : List String :=
  match c.ids.orElse (fun _ => g.ids) with
  | some x => x.toList
  | none => []

/-- `config.targetElements ?? globalConfig.targetElements ?? []`,
normalised to an array. -/
def effTags (c : EventOptions) (g : EventGlobalConfig) : List String :=
  match c.targetElements.orElse (fun _ => g.targetElements) with
  | some x => x.toList
  | none => []

/-- Insertion into a JS `Set` of elements, preserving insertion order. -/
def insertUniq (l : List Elem) (e : Elem) : List Elem :=
  if e ∈ l then l else l ++ [e]

/-- The id-resolved element set `idSet` (source lines 139-144):
successful `getElementById` lookups, in id order, deduplicated. -/
def idResolve (doc : Doc) (c : EventOptions) (g : EventGlobalConfig) :
    List Elem :=
  (effIds c g).foldl
    (fun acc i =>
      match getElementById doc i with
      | some e => insertUniq acc e
      | none => acc) []

/-- The tag-resolved element set `elementSet` (source lines 147-158). -/
def tagResolve (doc : Doc) (c : EventOptions) (g : EventGlobalConfig) :
    List Elem :=
  (effTags c g).foldl
    (fun acc t => (getElementsByTagName doc t).foldl insertUniq acc) []

/-- Resolution of one binding (source lines 125-189): effective callback
and merged options, then the element-set branching — both resolved sets
empty skips the config; an empty `idSet` uses the tag set alone; an
empty `elementSet` uses the id set alone; otherwise the elements of
`idSet` that are also in `elementSet`. -/
def resolveConfig (doc : Doc) (cbDefault : Nat) (g : EventGlobalConfig)
    (c : EventOptions) : Option ElementCallback :=
  let ccb := c.callback.getD cbDefault
  let opts := mergeOpts g.options c.options
  let idSet := idResolve doc c g
  let elementSet := tagResolve doc c g
  if idSet = [] ∧ elementSet = [] then none
  else
    let elements :=
      if idSet = [] then elementSet
      else if elementSet = [] then idSet
      else idSet.filter (fun e => decide (e ∈ elementSet))
    some { event := c.event, elements := elements, callback := ccb,
           options := opts }

/-- The capture flag under which a group's listeners are registered. -/
def captureOf (o : ListenerOptions) : Bool := o.capture.getD false

/-- The listener identities of one bookkeeping group, in element order. -/
def groupKeys (g : ElementCallback) : List AttachKey :=
  g.elements.map (fun el => ⟨el.eid, g.event, g.callback, captureOf g.options⟩)

/-- All listener identities a bookkeeping table refers to, in tracking
order (groups in order, elements in order). -/
def allKeys (groups : List ElementCallback) : List AttachKey :=
  (groups.map groupKeys).flatten

/-- A listener-registration call issued against the DOM. -/
inductive LCall where
  | add (k : AttachKey)
  | remove (k : AttachKey)
deriving DecidableEq, Repr

/-- The multiplexer's state: the bookkeeping table
`elementCallbacksRef.current`, the DOM's listener table, and the log of
add/remove calls issued. -/
structure MuxState where
  groups : List ElementCallback
  table : List AttachKey
  calls : List LCall
deriving DecidableEq, Repr

/-- A freshly mounted multiplexer over a document with no listeners. -/
def muxInit : MuxState := ⟨[], [], []⟩

/-- `removeEventListeners` (source lines 196-204): walk the bookkeeping
groups in order (forEach, forward), remove each tracked listener, then
empty the table. -/
def removeEventListeners (st : MuxState) : MuxState :=
  let ks := allKeys st.groups
  { groups := [],
    table := detachAll st.table ks,
    calls := st.calls ++ ks.map LCall.remove }

/-- The groups a configuration resolves to; independent of the previous
state. -/
def resolvedGroups (doc : Doc) (cb : Nat) (arg : EventOptionsArg)
    (g : EventGlobalConfig) : List ElementCallback :=
  (normalizeConfigs arg).filterMap (resolveConfig doc cb g)

/-- `addEventListeners` (source lines 106-193): remove every previously
tracked listener first, then resolve the configuration and attach a
listener to each resolved element, recording the new groups. -/
def addEventListeners (doc : Doc) (cb : Nat) (arg : EventOptionsArg)
    (g : EventGlobalConfig) (st : MuxState) : MuxState :=
  let st1 := removeEventListeners st
  let gs := resolvedGroups doc cb arg g
  let ks := allKeys gs
  { groups := gs,
    table := attachAll st1.table ks,
    calls := st1.calls ++ ks.map LCall.add }

theorem mem_addListener {t : List AttachKey} {k x : AttachKey} :
    x ∈ addListener t k ↔ x ∈ t ∨ x = k := by
  by_cases h : k ∈ t
  · simp only [addListener, if_pos h]
    exact ⟨Or.inl, fun hx => hx.elim id (fun hxk => hxk ▸ h)⟩
  · simp [addListener, if_neg h]

theorem nodup_addListener {t : List AttachKey} {k : AttachKey}
    (ht : t.Nodup) : (addListener t k).Nodup := by
  by_cases h : k ∈ t
  · simpa only [addListener, if_pos h] using ht
  · simp only [addListener, if_neg h]
    rw [List.nodup_append]
    refine ⟨ht, List.nodup_singleton k, ?_⟩
    intro a ha hk
    rw [List.mem_singleton] at hk
    exact h (hk ▸ ha)

theorem mem_attachAll {x : AttachKey} :
    ∀ (ks t : List AttachKey), x ∈ attachAll t ks ↔ x ∈ t ∨ x ∈ ks := by
  intro ks
  induction ks with
  | nil => intro t; simp [attachAll]
  | cons k ks ih =>
    intro t
    simp only [attachAll, List.foldl_cons] at ih ⊢
    rw [ih, mem_addListener, List.mem_cons]
    tauto

theorem nodup_attachAll :
    ∀ (ks t : List AttachKey), t.Nodup → (attachAll t ks).Nodup := by
  intro ks
  induction ks with
  | nil => intro t h; simpa [attachAll] using h
  | cons k ks ih =>
    intro t h
    simp only [attachAll, List.foldl_cons] at ih ⊢
    exact ih _ (nodup_addListener h)

theorem eraseFirst_sublist :
    ∀ (t : List AttachKey) (k : AttachKey), List.Sublist (eraseFirst t k) t := by
  intro t k
  induction t with
  | nil => simp [eraseFirst]
  | cons a rest ih =>
    simp only [eraseFirst]
    split
    · exact List.sublist_cons_self a rest
    · exact ih.cons₂ a

theorem not_mem_eraseFirst {k : AttachKey} :
    ∀ (t : List AttachKey), t.Nodup → k ∉ eraseFirst t k := by
  intro t
  induction t with
  | nil => intro _; simp [eraseFirst]
  | cons a rest ih =>
    intro h
    rcases List.nodup_cons.mp h with ⟨hna, hr⟩
    simp only [eraseFirst]
    split
    · next hak => exact fun hk => hna (hak ▸ hk)
    · next hak =>
      rw [List.mem_cons]
      rintro (rfl | hk)
      · exact hak rfl
      · exact ih hr hk

theorem detachAll_eq_nil :
    ∀ (ks t : List AttachKey), t.Nodup → (∀ x ∈ t, x ∈ ks) →
      detachAll t ks = [] := by
  intro ks
  induction ks with
  | nil =>
    intro t _ hsub
    cases t with
    | nil => rfl
    | cons a r => exact absurd (hsub a (List.mem_cons_self a r)) (List.not_mem_nil a)
  | cons k ks ih =>
    intro t h hsub
    simp only [detachAll, List.foldl_cons] at ih ⊢
    apply ih
    · exact (eraseFirst_sublist t k).nodup h
    · intro x hx
      have hxt : x ∈ t := (eraseFirst_sublist t k).subset hx
      rcases List.mem_cons.mp (hsub x hxt) with h1 | h2
      · exact absurd (h1 ▸ hx) (not_mem_eraseFirst t h)
      · exact h2

theorem detachAll_attachAll_nil (ks : List AttachKey) :
    detachAll (attachAll [] ks) ks = [] := by
  apply detachAll_eq_nil
  · exact nodup_attachAll ks [] List.nodup_nil
  · intro x hx
    exact ((mem_attachAll ks []).mp hx).resolve_left (List.not_mem_nil x)

theorem allKeys_nil : allKeys [] = [] := rfl

theorem detachAll_nil_left : ∀ ks : List AttachKey, detachAll [] ks = []
  | [] => rfl
  | _ :: ks => detachAll_nil_left ks

/-- Document for the C4 counterexample: one button carrying no id. -/
def doc4 : Doc := [⟨0, none, "button"⟩]

/-- Binding for the C4 counterexample: both an id selector and a tag
selector are given, but no element has id `x`. -/
def cfg4 : EventOptions :=
  { event := "click", targetElements := some (.str "button"),
    ids := some (.arr ["x"]) }

/-- Witness document where both selector kinds resolve to at least one
element. -/
def doc4w : Doc :=
  [⟨0, some "x", "button"⟩, ⟨1, none, "button"⟩, ⟨2, some "y", "div"⟩]

/-- Witness binding with id selectors `x`, `y` and tag selector
`button`. -/
def cfg4w : EventOptions :=
  { event := "click", targetElements := some (.str "button"),
    ids := some (.arr ["x", "y"]) }

/-- Document for the C6 counterexample: two elements with distinct ids. -/
def doc6 : Doc := [⟨0, some "a", "button"⟩, ⟨1, some "b", "div"⟩]

/-- Binding list for the C6 counterexample: two id-targeted bindings, so
the bookkeeping tracks two listeners in a definite order. -/
def arg6 : EventOptionsArg :=
  .many [{ event := "click", ids := some (.str "a") },
         { event := "click", ids := some (.str "b") }]

/-- Claim C4 counterexample: the binding `cfg4` gives both id selectors
(`["x"]`) and tag selectors (`["button"]`); no element has id `x`, so
the id set resolves empty and the code falls back to tag-only targeting,
attaching a listener to the button — an element matching only one of the
two selector kinds.  This refutes the claim that a listener is attached
exactly to the intersection whenever both selector kinds are specified. -/
theorem useEvent_intersection_fallback_cex :
    getElementById doc4 "x" = none ∧
    (addEventListeners doc4 0 (EventOptionsArg.one cfg4) {} muxInit).table
      = [⟨0, "click", 0, false⟩] := by
  decide

/-- Claim C4 (amended): whenever both the id selectors and the tag selectors
of a binding resolve to at least one element, the binding's listeners go
exactly to the elements in both resolved sets (their intersection), and
to no element in only one of them. -/
theorem useEvent_selector_intersection (doc : Doc) (cb : Nat)
    (g : EventGlobalConfig) (c : EventOptions)
    (hI : idResolve doc c g ≠ []) (hT : tagResolve doc c g ≠ []) :
    ∃ gr, resolveConfig doc cb g c = some gr ∧
      gr.elements
        = (idResolve doc c g).filter (fun e => decide (e ∈ tagResolve doc c g)) ∧
      ∀ e : Elem, e ∈ gr.elements ↔ e ∈ idResolve doc c g ∧ e ∈ tagResolve doc c g := by
  simp only [resolveConfig]
  rw [if_neg (fun h => hI h.1), if_neg hI, if_neg hT]
  refine ⟨_, rfl, rfl, ?_⟩
  intro e
  simp [List.mem_filter]

/-- Claim C4 witness: on `doc4w` both selector kinds of `cfg4w` resolve
nonempty, and the resolved listener set is their intersection. -/
theorem useEvent_selector_intersection_witness :
    idResolve doc4w cfg4w {} ≠ [] ∧ tagResolve doc4w cfg4w {} ≠ [] ∧
    ∃ gr, resolveConfig doc4w 0 {} cfg4w = some gr ∧
      gr.elements
        = (idResolve doc4w cfg4w {}).filter
            (fun e => decide (e ∈ tagResolve doc4w cfg4w {})) ∧
      ∀ e : Elem, e ∈ gr.elements ↔
        e ∈ idResolve doc4w cfg4w {} ∧ e ∈ tagResolve doc4w cfg4w {} :=
  ⟨by decide, by decide,
   useEvent_selector_intersection doc4w 0 {} cfg4w (by decide) (by decide)⟩

/-- Claim C5: reconfiguring the multiplexer with an identical configuration
first removes every previously attached listener (one remove call per
earlier add call, in the same order) and then re-attaches the same set,
ending with the same bookkeeping groups and the same DOM listener table
as before, with no duplicate attachments. -/
theorem useEvent_reconfigure_idempotent (doc : Doc) (cb : Nat)
    (arg : EventOptionsArg) (g : EventGlobalConfig) :
    (addEventListeners doc cb arg g (addEventListeners doc cb arg g muxInit)).groups
        = (addEventListeners doc cb arg g muxInit).groups ∧
    (addEventListeners doc cb arg g (addEventListeners doc cb arg g muxInit)).table
        = (addEventListeners doc cb arg g muxInit).table ∧
    (addEventListeners doc cb arg g (addEventListeners doc cb arg g muxInit)).calls
        = (addEventListeners doc cb arg g muxInit).calls
            ++ (allKeys (addEventListeners doc cb arg g muxInit).groups).map LCall.remove
            ++ (allKeys (addEventListeners doc cb arg g muxInit).groups).map LCall.add := by
  simp only [addEventListeners, removeEventListeners, muxInit, allKeys_nil,
             detachAll_nil_left, detachAll_attachAll_nil, List.map_nil,
             List.append_nil, List.nil_append]
  simp

/-- Claim C6 counterexample: with two tracked listeners, disposal issues the
remove calls in the bookkeeping's forward order, not in the reverse
order the claim states. -/
theorem useEvent_teardown_not_reverse :
    (removeEventListeners (addEventListeners doc6 0 arg6 {} muxInit)).calls
      ≠ (addEventListeners doc6 0 arg6 {} muxInit).calls
          ++ ((allKeys (addEventListeners doc6 0 arg6 {} muxInit).groups).reverse).map
              LCall.remove := by
  decide

/-- Claim C6 (amended): on disposal every still-attached listener is removed,
in the same (forward) order in which the bookkeeping structure tracked
them, and afterwards no listener remains attached: the DOM table and the
bookkeeping table are both empty. -/
theorem useEvent_teardown_complete (doc : Doc) (cb : Nat)
    (arg : EventOptionsArg) (g : EventGlobalConfig) :
    (removeEventListeners (addEventListeners doc cb arg g muxInit)).groups = [] ∧
    (removeEventListeners (addEventListeners doc cb arg g muxInit)).table = [] ∧
    (removeEventListeners (addEventListeners doc cb arg g muxInit)).calls
      = (addEventListeners doc cb arg g muxInit).calls
          ++ (allKeys (addEventListeners doc cb arg g muxInit).groups).map
              LCall.remove := by
  simp only [addEventListeners, removeEventListeners, muxInit, allKeys_nil,
             detachAll_nil_left, detachAll_attachAll_nil, List.map_nil,
             List.append_nil, List.nil_append]
  simp

end UseEvent
